import Mathlib

/-!
Verification of the pthreads Conway's Game of Life engine (src/life.c).

Shallow embedding: a grid buffer is a function from row/column indices to
cell values, the per-generation parallel update over all workers' row
ranges is `parStep`, per-worker statistics are finite sums over row
ranges, and the seeding of generation 0 follows the drand48 linear
congruential generator seeded by `srand48(0)`.
-/

namespace Life

/-- A grid buffer: cell value at row `i`, column `j` (life.c: `int **grid[2]`). -/
def Grid : Type := Nat → Nat → Nat

/-- 8-neighbor sum of cell `(i, j)` read from buffer `g` (life.c lines 66-69). -/
def neighCount (g : Grid) (i j : Nat) : Nat :=
  g (i-1) (j-1) + g (i-1) j + g (i-1) (j+1) +
  g i (j-1) + g i (j+1) +
  g (i+1) (j-1) + g (i+1) j + g (i+1) (j+1)

/-- The per-cell transition switch (life.c lines 70-85): neighbor sum 2 keeps
the previous state, 3 makes the cell live, anything else makes it dead. -/
def nextCell (g : Grid) (i j : Nat) : Nat :=
  if neighCount g i j = 2 then g i j
  else if neighCount g i j = 3 then 1
  else 0

/-- First row owned by worker `t` (life.c line 45):
`start_row = me->thread_num * gridsize / num_threads + 1`. -/
def start_row (t G T : Nat) : Nat := t * G / T + 1

/-- Last row owned by worker `t` (life.c line 46):
`end_row = start_row + gridsize / num_threads - 1`. -/
def end_row (t G T : Nat) : Nat := start_row t G T + G / T - 1

/-- The set of interior rows worker `t` visits. -/
def rowRange (t G T : Nat) : Finset Nat := Finset.Icc (start_row t G T) (end_row t G T)

/-- Row `i` is visited by some worker. -/
def ownedRow (G T i : Nat) : Bool :=
  decide (∃ t, t < T ∧ start_row t G T ≤ i ∧ i ≤ end_row t G T)

/-- One generation of the combined parallel update (life.c lines 64-87): every
worker writes `nextCell` of the previous buffer into the current buffer over
its row range and columns `1..G`; every other entry of the current buffer is
left as it was. -/
def parStep (G T : Nat) (prev curr : Grid) : Grid :=
  fun i j => if ownedRow G T i ∧ 1 ≤ j ∧ j ≤ G then nextCell prev i j else curr i j

/-- The two grid buffers (life.c: `grid[0]`, `grid[1]`). -/
structure LifeState where
  buf0 : Grid
  buf1 : Grid

/-- The buffer written during iteration `iter` (life.c lines 52, 57:
`curr` starts at 0 and toggles before each iteration, so `curr = iter % 2`). -/
def currBuf (iter : Nat) (s : LifeState) : Grid :=
  if iter % 2 = 1 then s.buf1 else s.buf0

/-- The buffer read during iteration `iter` (the one not written). -/
def prevBuf (iter : Nat) (s : LifeState) : Grid :=
  if iter % 2 = 1 then s.buf0 else s.buf1

/-- One iteration of the simulation loop body acting on both buffers. -/
def stepState (G T iter : Nat) (s : LifeState) : LifeState :=
  if iter % 2 = 1 then ⟨s.buf0, parStep G T s.buf0 s.buf1⟩
  else ⟨parStep G T s.buf1 s.buf0, s.buf1⟩

/-- Run iterations `1, 2, ..., n` of the simulation loop (life.c line 55). -/
def runIters (G T : Nat) : Nat → LifeState → LifeState
  | 0, s => s
  | n+1, s => stepState G T (n+1) (runIters G T n s)

/-- drand48 modulus `2^48`. -/
def drandM : Nat := 2 ^ 48

/-- One step of the drand48 linear congruential generator:
`x <- (0x5DEECE66D * x + 0xB) mod 2^48`. -/
def drandNext (x : Nat) : Nat := (0x5DEECE66D * x + 0xB) % drandM

/-- State installed by `srand48(s)`: the high 32 bits are the seed, the low
16 bits are the constant `0x330E`. -/
def seedInit (s : Nat) : Nat := (s * 2 ^ 16 + 0x330E) % drandM

/-- The value of the `n`-th call to `drand48()` after `srand48(s)`, scaled by
`2^48` (drand48 advances the state and returns it divided by `2^48`). -/
def drandVal (s n : Nat) : Nat := drandNext^[n] (seedInit s)

/-- The C comparison `drand48() < init_pct`, with the drand48 value scaled by
`2^48`: `x * p.den < p.num * 2^48` over ℤ, which is equivalent to
`x / 2^48 < p` over ℚ (proved in `liveTest_iff`). -/
def liveTest (p : ℚ) (x : Nat) : Bool := (x : ℤ) * (p.den : ℤ) < p.num * (drandM : ℤ)

/-- Initial seeding of buffer 0 (life.c lines 150-160): interior cells are
visited row-major, cell `(i, j)` consuming the `((i-1)*G + j)`-th drand48
value; the cell is live exactly when `drand48() < init_pct`. Everything
outside the interior is 0 (life.c lines 143-148). -/
def initGrid (G : Nat) (p : ℚ) (s : Nat) : Grid :=
  fun i j =>
    if 1 ≤ i ∧ i ≤ G ∧ 1 ≤ j ∧ j ≤ G ∧ liveTest p (drandVal s ((i-1) * G + j))
    then 1 else 0

/-- The state before iteration 1: buffer 0 seeded, buffer 1 all zero. -/
def initState (G : Nat) (p : ℚ) (s : Nat) : LifeState :=
  ⟨initGrid G p s, fun _ _ => 0⟩

/-- The buffer holding the simulation state after `iters` iterations. -/
def finalGrid (G T iters : Nat) (p : ℚ) (s : Nat) : Grid :=
  if iters % 2 = 1 then (runIters G T iters (initState G p s)).buf1
  else (runIters G T iters (initState G p s)).buf0

/-- Worker `t`'s local live count (life.c line 86): the sum of the current
buffer's values over all visited cells. -/
def localLive (G T t : Nat) (curr : Grid) : Nat :=
  ∑ i in rowRange t G T, ∑ j in Finset.Icc 1 G, curr i j

/-- Worker `t`'s local birth count (life.c line 77): visited cells whose
neighbor sum is 3 and whose previous state is dead. -/
def localBirths (G T t : Nat) (prev : Grid) : Nat :=
  ∑ i in rowRange t G T, ∑ j in Finset.Icc 1 G,
    if neighCount prev i j = 3 ∧ prev i j = 0 then 1 else 0

/-- Worker `t`'s local death count (life.c line 82): visited cells in the
default branch (neighbor sum not 2 or 3) whose previous state is nonzero. -/
def localDeaths (G T t : Nat) (prev : Grid) : Nat :=
  ∑ i in rowRange t G T, ∑ j in Finset.Icc 1 G,
    if neighCount prev i j ≠ 2 ∧ neighCount prev i j ≠ 3 ∧ prev i j ≠ 0 then 1 else 0

/-- Reduced live count over all workers (life.c lines 91-105). -/
def totalLive (G T : Nat) (curr : Grid) : Nat :=
  ∑ t in Finset.range T, localLive G T t curr

/-- Reduced birth count over all workers. -/
def totalBirths (G T : Nat) (prev : Grid) : Nat :=
  ∑ t in Finset.range T, localBirths G T t prev

/-- Reduced death count over all workers. -/
def totalDeaths (G T : Nat) (prev : Grid) : Nat :=
  ∑ t in Finset.range T, localDeaths G T t prev

/-- Number of interior cells on worker-visited rows that are dead in `prev`
and live in `curr` (the spec's independent characterization of births). -/
def visitedBirths (G T : Nat) (prev curr : Grid) : Nat :=
  ∑ i in Finset.Icc 1 G, ∑ j in Finset.Icc 1 G,
    if ownedRow G T i ∧ prev i j = 0 ∧ curr i j = 1 then 1 else 0

/-- Number of interior cells on worker-visited rows that are live in `prev`
and dead in `curr` (the spec's independent characterization of deaths). -/
def visitedDeaths (G T : Nat) (prev curr : Grid) : Nat :=
  ∑ i in Finset.Icc 1 G, ∑ j in Finset.Icc 1 G,
    if ownedRow G T i ∧ prev i j = 1 ∧ curr i j = 0 then 1 else 0

/-- The three shared per-generation counters (life.c line 23). -/
structure Counters where
  live : Nat
  died : Nat
  born : Nat
deriving DecidableEq

/-- The reset written by every worker before the first barrier wait
(life.c line 91). All workers write the same value, so the state after the
reset phase is this constant regardless of the order of the writes. -/
def resetCounters : Counters := ⟨0, 0, 0⟩

/-- One worker's mutex-protected contribution of its local counts into the
shared counters (life.c lines 98-102). -/
def accumulate (shared contrib : Counters) : Counters :=
  ⟨shared.live + contrib.live, shared.died + contrib.died, shared.born + contrib.born⟩

/-- The reset-barrier-accumulate-barrier protocol of one generation
(life.c lines 89-105): after the reset phase and the first barrier the shared
counters hold `resetCounters`; the mutex serializes the workers'
contributions into some order chosen by the scheduler; the second barrier
makes the folded total visible. -/
def reduceCounts (order : List Counters) : Counters :=
  order.foldl accumulate resetCounters

/-- The statistics the reduction produces for generation `g ≥ 1` of a run:
all workers' local counts summed, computed from the buffers of iteration
`g` (live from the written buffer, births and deaths from the read one). -/
def statsOfGen (G T : Nat) (p : ℚ) (s g : Nat) : Counters :=
  let st := runIters G T (g-1) (initState G p s)
  ⟨totalLive G T (parStep G T (prevBuf g st) (currBuf g st)),
   totalDeaths G T (prevBuf g st),
   totalBirths G T (prevBuf g st)⟩

/-- Initial live-cell count reported before any generation
(life.c lines 152-163). -/
def initialLive (G : Nat) (p : ℚ) (s : Nat) : Nat :=
  ∑ i in Finset.Icc 1 G, ∑ j in Finset.Icc 1 G, initGrid G p s i j

/-- Outcome of program startup: either an exit with a code and a message on
standard error, or the run proceeds. -/
inductive StartupResult where
  | exited : Nat → String → StartupResult
  | running : StartupResult
deriving DecidableEq

/-- Startup resource creation (life.c lines 165-181): `pthread_barrier_init`
and `pthread_mutex_init` are called but their return codes are not examined;
then the workers are created in order and the first nonzero
`pthread_create` return code aborts with `exit(1)` after reporting the
failing thread index on standard error. -/
def startup (barrier_rc mutex_rc : Int) (thread_rcs : List Int) : StartupResult :=
  match thread_rcs.findIdx? (fun rc => rc != 0) with
  | some t => StartupResult.exited 1 ("Could not create thread " ++ toString t)
  | none => StartupResult.running

/-- The seed handed to `srand48` (life.c line 127): the literal `0`,
whatever value `env` the environment (time, arguments, ...) might offer a
configurable program. -/
def seedOf (env : Nat) : Nat := 0

/-- Everything a run prints, as a function of the outside world `env` and the
command-line arguments: the initial live count, the per-generation statistics
lines, and the final grid state. -/
def observableRun (env G T iters : Nat) (p : ℚ) : Nat × List Counters × Grid :=
  (initialLive G p (seedOf env),
   (List.range iters).map (fun k => statsOfGen G T p (seedOf env) (k+1)),
   finalGrid G T iters p (seedOf env))

/-! ### Helper lemmas: the drand48 threshold test -/

lemma liveTest_iff (p : ℚ) (x : Nat) :
    liveTest p x = true ↔ (x : ℚ) < p * (drandM : ℚ) := by
  rw [liveTest, decide_eq_true_eq]
  have hden : (0:ℚ) < (p.den : ℚ) := by exact_mod_cast p.den_pos
  rw [show ((x : ℚ) < p * (drandM : ℚ) ↔
      (x:ℚ) * (p.den:ℚ) < p * (drandM : ℚ) * (p.den:ℚ)) from (mul_lt_mul_right hden).symm]
  rw [show p * (drandM : ℚ) * (p.den:ℚ) = (p * (p.den:ℚ)) * (drandM : ℚ) by ring]
  rw [Rat.mul_den_eq_num]
  constructor
  · intro h; exact_mod_cast h
  · intro h; exact_mod_cast h

/-! ### Helper lemmas: row ranges -/

lemma end_row_eq (t G T : Nat) : end_row t G T = t * G / T + G / T := by
  rw [end_row, start_row]
  generalize t * G / T = a
  generalize G / T = b
  omega

lemma one_le_start_row (t G T : Nat) : 1 ≤ start_row t G T :=
  Nat.le_add_left 1 (t * G / T)

lemma start_row_mono (G T : Nat) {t t' : Nat} (h : t ≤ t') :
    start_row t G T ≤ start_row t' G T :=
  Nat.add_le_add_right (Nat.div_le_div_right (Nat.mul_le_mul_right G h)) 1

lemma end_row_lt_start_succ (t G T : Nat) : end_row t G T < start_row (t+1) G T := by
  rw [end_row_eq, start_row]
  have h1 : t * G / T + G / T ≤ (t * G + G) / T := Nat.add_div_le_add_div _ _ _
  rw [show t * G + G = (t+1) * G by ring] at h1
  omega

lemma rowRange_disjoint_of_lt (G T : Nat) {t t' : Nat} (h : t < t') :
    Disjoint (rowRange t G T) (rowRange t' G T) := by
  rw [Finset.disjoint_left]
  intro i hi hi'
  rw [rowRange, Finset.mem_Icc] at hi hi'
  have h1 : end_row t G T < start_row (t+1) G T := end_row_lt_start_succ t G T
  have h2 : start_row (t+1) G T ≤ start_row t' G T := start_row_mono G T h
  omega

lemma rowRange_disjoint (G T : Nat) {t t' : Nat} (h : t ≠ t') :
    Disjoint (rowRange t G T) (rowRange t' G T) := by
  rcases Nat.lt_or_ge t t' with hlt | hge
  · exact rowRange_disjoint_of_lt G T hlt
  · exact (rowRange_disjoint_of_lt G T (Nat.lt_of_le_of_ne hge (Ne.symm h))).symm

lemma end_row_le (G : Nat) {t T : Nat} (hT : 0 < T) (ht : t < T) :
    end_row t G T ≤ G := by
  rw [end_row_eq]
  have h1 : t * G / T + G / T ≤ (t * G + G) / T := Nat.add_div_le_add_div _ _ _
  rw [show t * G + G = (t+1) * G by ring] at h1
  have h3 : (t+1) * G ≤ T * G := Nat.mul_le_mul_right G (by omega)
  have h4 : (t+1) * G / T ≤ T * G / T := Nat.div_le_div_right h3
  have h5 : T * G / T = G := Nat.mul_div_cancel_left G hT
  omega

lemma mem_rowRange_interior (G : Nat) {t T i : Nat} (hT : 0 < T) (ht : t < T)
    (hi : i ∈ rowRange t G T) : 1 ≤ i ∧ i ≤ G := by
  rw [rowRange, Finset.mem_Icc] at hi
  have h1 := end_row_le G hT ht
  have h2 := one_le_start_row t G T
  omega

lemma ownedRow_iff (G T i : Nat) :
    ownedRow G T i = true ↔ ∃ t, t < T ∧ i ∈ rowRange t G T := by
  rw [ownedRow, decide_eq_true_eq]
  constructor
  · rintro ⟨t, h1, h2, h3⟩
    exact ⟨t, h1, by rw [rowRange, Finset.mem_Icc]; exact ⟨h2, h3⟩⟩
  · rintro ⟨t, h1, h2⟩
    rw [rowRange, Finset.mem_Icc] at h2
    exact ⟨t, h1, h2.1, h2.2⟩

lemma ownedRow_zero (G T : Nat) : ownedRow G T 0 = false := by
  rw [Bool.eq_false_iff]
  intro h
  rcases (ownedRow_iff G T 0).1 h with ⟨t, _, h2⟩
  rw [rowRange, Finset.mem_Icc] at h2
  have := one_le_start_row t G T
  omega

lemma ownedRow_top (G : Nat) {T : Nat} (hT : 0 < T) {i : Nat} (hi : G < i) :
    ownedRow G T i = false := by
  rw [Bool.eq_false_iff]
  intro h
  rcases (ownedRow_iff G T i).1 h with ⟨t, ht, h2⟩
  have := mem_rowRange_interior G hT ht h2
  omega

lemma owned_filter_eq (G : Nat) {T : Nat} (hT : 0 < T) :
    (Finset.Icc 1 G).filter (fun i => ownedRow G T i) =
      (Finset.range T).biUnion (fun t => rowRange t G T) := by
  ext i
  rw [Finset.mem_filter, Finset.mem_biUnion, Finset.mem_Icc]
  constructor
  · rintro ⟨_, h2⟩
    rcases (ownedRow_iff G T i).1 (by simpa using h2) with ⟨t, h3, h4⟩
    exact ⟨t, Finset.mem_range.2 h3, h4⟩
  · rintro ⟨t, h1, h2⟩
    rw [Finset.mem_range] at h1
    refine ⟨mem_rowRange_interior G hT h1 h2, ?_⟩
    simpa using (ownedRow_iff G T i).2 ⟨t, h1, h2⟩

lemma rowRange_card (t G T : Nat) : (rowRange t G T).card = G / T := by
  rw [rowRange, Nat.card_Icc, end_row_eq, start_row]
  generalize t * G / T = a
  generalize G / T = b
  omega

lemma start_row_of_dvd {G T : Nat} (hdvd : G % T = 0) (t : Nat) :
    start_row t G T = t * (G / T) + 1 := by
  rw [start_row, Nat.mul_div_assoc t (Nat.dvd_of_mod_eq_zero hdvd)]

lemma end_row_of_dvd {G T : Nat} (hdvd : G % T = 0) (t : Nat) :
    end_row t G T = t * (G / T) + G / T := by
  rw [end_row_eq, Nat.mul_div_assoc t (Nat.dvd_of_mod_eq_zero hdvd)]

lemma coverage_of_dvd {G T : Nat} (hT : 0 < T) (hdvd : G % T = 0) {i : Nat}
    (h1 : 1 ≤ i) (h2 : i ≤ G) : ∃ t, t < T ∧ i ∈ rowRange t G T := by
  have hG : T * (G / T) = G := Nat.mul_div_cancel' (Nat.dvd_of_mod_eq_zero hdvd)
  have hq : 0 < G / T := by
    rcases Nat.eq_zero_or_pos (G / T) with h | h
    · rw [h, Nat.mul_zero] at hG; omega
    · exact h
  refine ⟨(i - 1) / (G / T), ?_, ?_⟩
  · rw [Nat.div_lt_iff_lt_mul hq]
    omega
  · rw [rowRange, Finset.mem_Icc, start_row_of_dvd hdvd, end_row_of_dvd hdvd]
    have hdm := Nat.div_add_mod (i - 1) (G / T)
    have hlt : (i - 1) % (G / T) < G / T := Nat.mod_lt _ hq
    rw [Nat.mul_comm (G / T) ((i - 1) / (G / T))] at hdm
    generalize (i - 1) / (G / T) * (G / T) = A at hdm ⊢
    generalize (i - 1) % (G / T) = r at hdm hlt
    generalize G / T = q at hlt ⊢
    omega

lemma ownedRow_iff_of_dvd {G T : Nat} (hT : 0 < T) (hdvd : G % T = 0) (i : Nat) :
    ownedRow G T i = true ↔ (1 ≤ i ∧ i ≤ G) := by
  rw [ownedRow_iff]
  constructor
  · rintro ⟨t, ht, hi⟩
    exact mem_rowRange_interior G hT ht hi
  · rintro ⟨h1, h2⟩
    exact coverage_of_dvd hT hdvd h1 h2

lemma end_row_lt_of_not_dvd {G T : Nat} (hT : 0 < T) {t : Nat} (ht : t < T)
    (hr : G % T ≠ 0) : end_row t G T < G := by
  rw [end_row_eq]
  by_contra hcon
  push_neg at hcon
  have hGq : G - G / T ≤ t * G / T := by
    generalize t * G / T = x at hcon ⊢
    generalize G / T = y at hcon ⊢
    omega
  have e5 : (G - G / T) * T ≤ t * G / T * T := Nat.mul_le_mul_right T hGq
  have e1 : t * G / T * T ≤ t * G := Nat.div_mul_le_self (t * G) T
  have e2 : t * G + G ≤ T * G := by
    have h := Nat.mul_le_mul_right G (show t + 1 ≤ T by omega)
    rw [show (t + 1) * G = t * G + G by ring] at h
    exact h
  have e3 : (G - G / T) * T = G * T - G / T * T := Nat.sub_mul G (G / T) T
  have e4 : G / T * T + G % T = G := by
    rw [Nat.mul_comm]
    exact Nat.div_add_mod G T
  have hrge : 1 ≤ G % T := Nat.one_le_iff_ne_zero.2 hr
  rw [Nat.mul_comm G T] at e3
  generalize t * G / T * T = A at e5 e1
  generalize t * G = B at e1 e2
  generalize (G - G / T) * T = E at e5 e3
  generalize G / T * T = D at e3 e4
  generalize T * G = C at e2 e3
  omega

lemma owned_card {G T : Nat} (hT : 0 < T) :
    ((Finset.Icc 1 G).filter (fun i => ownedRow G T i)).card = T * (G / T) := by
  rw [owned_filter_eq G hT, Finset.card_biUnion]
  · rw [Finset.sum_congr rfl (fun t _ => rowRange_card t G T), Finset.sum_const,
      Finset.card_range, smul_eq_mul]
  · intro x _ y _ hxy
    exact rowRange_disjoint G T hxy

lemma unowned_card {G T : Nat} (hT : 0 < T) :
    ((Finset.Icc 1 G).filter (fun i => ¬ ownedRow G T i)).card = G % T := by
  have h : ((Finset.Icc 1 G).filter (fun i => ownedRow G T i)).card
      + ((Finset.Icc 1 G).filter (fun i => ¬ ownedRow G T i)).card
      = (Finset.Icc 1 G).card :=
    Finset.filter_card_add_filter_neg_card_eq_card _
  rw [owned_card hT, Nat.card_Icc] at h
  have hdm := Nat.div_add_mod G T
  omega

/-! ### Helper lemmas: the parallel update and the two buffers -/

lemma parStep_owned {G T i j : Nat} (ho : ownedRow G T i = true)
    (hj1 : 1 ≤ j) (hj2 : j ≤ G) (prev curr : Grid) :
    parStep G T prev curr i j = nextCell prev i j := by
  rw [parStep, if_pos ⟨ho, hj1, hj2⟩]

lemma parStep_unowned {G T i : Nat} (h : ownedRow G T i = false)
    (prev curr : Grid) (j : Nat) : parStep G T prev curr i j = curr i j := by
  rw [parStep, if_neg]
  rintro ⟨h1, -, -⟩
  rw [h] at h1
  exact Bool.false_ne_true h1

lemma parStep_outside_cols {G T : Nat} (prev curr : Grid) (i : Nat) {j : Nat}
    (h : j = 0 ∨ G < j) : parStep G T prev curr i j = curr i j := by
  rw [parStep, if_neg]
  rintro ⟨-, h1, h2⟩
  omega

lemma runIters_unowned {G T i : Nat} (h : ownedRow G T i = false)
    (s : LifeState) (n j : Nat) :
    (runIters G T n s).buf0 i j = s.buf0 i j ∧
      (runIters G T n s).buf1 i j = s.buf1 i j := by
  induction n with
  | zero => exact ⟨rfl, rfl⟩
  | succ n ih =>
    rw [runIters, stepState]
    by_cases hp : (n + 1) % 2 = 1
    · rw [if_pos hp]
      exact ⟨ih.1, by dsimp only; rw [parStep_unowned h]; exact ih.2⟩
    · rw [if_neg hp]
      exact ⟨by dsimp only; rw [parStep_unowned h]; exact ih.1, ih.2⟩

lemma runIters_halo {G T : Nat} (hT : 0 < T) {i j : Nat}
    (h : i = 0 ∨ i = G + 1 ∨ j = 0 ∨ j = G + 1) (s : LifeState)
    (h0 : s.buf0 i j = 0) (h1 : s.buf1 i j = 0) (n : Nat) :
    (runIters G T n s).buf0 i j = 0 ∧ (runIters G T n s).buf1 i j = 0 := by
  have key : ∀ prev curr : Grid, parStep G T prev curr i j = curr i j := by
    intro prev curr
    rcases h with hi | hi | hj | hj
    · rw [hi, parStep_unowned (ownedRow_zero G T)]
    · rw [hi, parStep_unowned (ownedRow_top G hT (by omega))]
    · exact parStep_outside_cols prev curr i (Or.inl hj)
    · exact parStep_outside_cols prev curr i (Or.inr (by omega))
  induction n with
  | zero => exact ⟨h0, h1⟩
  | succ n ih =>
    rw [runIters, stepState]
    by_cases hp : (n + 1) % 2 = 1
    · rw [if_pos hp]
      exact ⟨ih.1, by dsimp only; rw [key]; exact ih.2⟩
    · rw [if_neg hp]
      exact ⟨by dsimp only; rw [key]; exact ih.1, ih.2⟩

lemma initGrid_halo {G : Nat} (p : ℚ) (s : Nat) {i j : Nat}
    (h : i = 0 ∨ i = G + 1 ∨ j = 0 ∨ j = G + 1) : initGrid G p s i j = 0 := by
  rw [initGrid, if_neg]
  rintro ⟨h1, h2, h3, h4, -⟩
  omega

lemma ownedRow_congr_dvd {G T : Nat} (hT : 0 < T) (hdvd : G % T = 0) (i : Nat) :
    ownedRow G T i = ownedRow G 1 i := by
  have h1 := ownedRow_iff_of_dvd Nat.one_pos (Nat.mod_one G) i
  have h2 := ownedRow_iff_of_dvd hT hdvd i
  by_cases h : 1 ≤ i ∧ i ≤ G
  · rw [h2.mpr h, h1.mpr h]
  · have ha : ownedRow G T i = false :=
      Bool.eq_false_iff.mpr (fun hh => h (h2.mp hh))
    have hb : ownedRow G 1 i = false :=
      Bool.eq_false_iff.mpr (fun hh => h (h1.mp hh))
    rw [ha, hb]

lemma parStep_congr {G T T' : Nat} (h : ∀ i, ownedRow G T i = ownedRow G T' i)
    (prev curr : Grid) : parStep G T prev curr = parStep G T' prev curr := by
  funext i j
  rw [parStep, parStep, h i]

lemma runIters_congr {G T T' : Nat} (h : ∀ i, ownedRow G T i = ownedRow G T' i)
    (n : Nat) (s : LifeState) : runIters G T n s = runIters G T' n s := by
  induction n with
  | zero => rfl
  | succ n ih =>
    rw [runIters, runIters, ih, stepState, stepState]
    by_cases hp : (n + 1) % 2 = 1
    · rw [if_pos hp, if_pos hp, parStep_congr h]
    · rw [if_neg hp, if_neg hp, parStep_congr h]

/-! ### Helper lemmas: transition indicators and count reduction -/

lemma birth_indicator (prev : Grid) (i j : Nat) :
    (neighCount prev i j = 3 ∧ prev i j = 0) ↔
      (prev i j = 0 ∧ nextCell prev i j = 1) := by
  rw [nextCell]
  split_ifs with h1 h2
  · constructor
    · rintro ⟨ha, -⟩
      omega
    · rintro ⟨ha, hb⟩
      omega
  · constructor
    · rintro ⟨-, hb⟩
      exact ⟨hb, rfl⟩
    · rintro ⟨ha, -⟩
      exact ⟨h2, ha⟩
  · constructor
    · rintro ⟨ha, -⟩
      exact absurd ha h2
    · rintro ⟨-, hb⟩
      exact hb.elim

lemma death_indicator (prev : Grid) {i j : Nat}
    (hb01 : prev i j = 0 ∨ prev i j = 1) :
    (neighCount prev i j ≠ 2 ∧ neighCount prev i j ≠ 3 ∧ prev i j ≠ 0) ↔
      (prev i j = 1 ∧ nextCell prev i j = 0) := by
  rw [nextCell]
  split_ifs with h1 h2
  · constructor
    · rintro ⟨ha, -, -⟩
      exact absurd h1 ha
    · rintro ⟨ha, hb⟩
      omega
  · constructor
    · rintro ⟨-, hb, -⟩
      exact absurd h2 hb
    · rintro ⟨-, hb⟩
      exact hb.elim
  · constructor
    · rintro ⟨-, -, hc⟩
      rcases hb01 with h | h
      · exact absurd h hc
      · exact ⟨h, rfl⟩
    · rintro ⟨ha, -⟩
      exact ⟨h1, h2, fun hh => by omega⟩

lemma sum_over_workers {G T : Nat} (hT : 0 < T) (f : Nat → Nat) :
    ∑ t in Finset.range T, ∑ i in rowRange t G T, f i
      = ∑ i in Finset.Icc 1 G, if ownedRow G T i then f i else 0 := by
  rw [← Finset.sum_biUnion
      (fun x _ y _ hxy => rowRange_disjoint G T hxy),
    ← owned_filter_eq G hT, Finset.sum_filter]

lemma localBirths_eq {G T t : Nat} (ht : t < T) (prev curr0 : Grid) :
    localBirths G T t prev
      = ∑ i in rowRange t G T, ∑ j in Finset.Icc 1 G,
          (if prev i j = 0 ∧ parStep G T prev curr0 i j = 1 then 1 else 0) := by
  rw [localBirths]
  refine Finset.sum_congr rfl (fun i hi => Finset.sum_congr rfl (fun j hj => ?_))
  rw [Finset.mem_Icc] at hj
  have ho : ownedRow G T i = true := (ownedRow_iff G T i).2 ⟨t, ht, hi⟩
  rw [parStep_owned ho hj.1 hj.2]
  exact if_congr (birth_indicator prev i j) rfl rfl

lemma localDeaths_eq {G T t : Nat} (ht : t < T) (prev curr0 : Grid)
    (hb : ∀ a b, prev a b = 0 ∨ prev a b = 1) :
    localDeaths G T t prev
      = ∑ i in rowRange t G T, ∑ j in Finset.Icc 1 G,
          (if prev i j = 1 ∧ parStep G T prev curr0 i j = 0 then 1 else 0) := by
  rw [localDeaths]
  refine Finset.sum_congr rfl (fun i hi => Finset.sum_congr rfl (fun j hj => ?_))
  rw [Finset.mem_Icc] at hj
  have ho : ownedRow G T i = true := (ownedRow_iff G T i).2 ⟨t, ht, hi⟩
  rw [parStep_owned ho hj.1 hj.2]
  exact if_congr (death_indicator prev (hb i j)) rfl rfl

lemma visited_push {G T : Nat} (P : Nat → Nat → Prop) [∀ i j, Decidable (P i j)] :
    (∑ i in Finset.Icc 1 G, if ownedRow G T i
        then (∑ j in Finset.Icc 1 G, if P i j then 1 else 0) else 0)
      = ∑ i in Finset.Icc 1 G, ∑ j in Finset.Icc 1 G,
          (if ownedRow G T i ∧ P i j then 1 else 0) := by
  refine Finset.sum_congr rfl (fun i _ => ?_)
  by_cases h : ownedRow G T i
  · rw [if_pos h]
    exact Finset.sum_congr rfl (fun j _ =>
      if_congr (Iff.intro (fun hp => ⟨h, hp⟩) (fun hp => hp.2)) rfl rfl)
  · rw [if_neg h]
    symm
    refine Finset.sum_eq_zero (fun j _ => ?_)
    rw [if_neg]
    rintro ⟨h1, -⟩
    exact h h1

lemma totalBirths_eq_visited {G T : Nat} (hT : 0 < T) (prev curr0 : Grid) :
    totalBirths G T prev = visitedBirths G T prev (parStep G T prev curr0) := by
  rw [totalBirths,
    Finset.sum_congr rfl
      (fun t htm => localBirths_eq (Finset.mem_range.1 htm) prev curr0),
    sum_over_workers hT
      (fun i => ∑ j in Finset.Icc 1 G,
        (if prev i j = 0 ∧ parStep G T prev curr0 i j = 1 then 1 else 0)),
    visited_push, visitedBirths]

lemma totalDeaths_eq_visited {G T : Nat} (hT : 0 < T) (prev curr0 : Grid)
    (hb : ∀ a b, prev a b = 0 ∨ prev a b = 1) :
    totalDeaths G T prev = visitedDeaths G T prev (parStep G T prev curr0) := by
  rw [totalDeaths,
    Finset.sum_congr rfl
      (fun t htm => localDeaths_eq (Finset.mem_range.1 htm) prev curr0 hb),
    sum_over_workers hT
      (fun i => ∑ j in Finset.Icc 1 G,
        (if prev i j = 1 ∧ parStep G T prev curr0 i j = 0 then 1 else 0)),
    visited_push, visitedDeaths]

/-! ### Helper lemmas: cell values stay 0 or 1 -/

lemma nextCell_bool {prev : Grid} (hb : ∀ a b, prev a b = 0 ∨ prev a b = 1)
    (i j : Nat) : nextCell prev i j = 0 ∨ nextCell prev i j = 1 := by
  rw [nextCell]
  split_ifs with h1 h2
  · exact hb i j
  · exact Or.inr rfl
  · exact Or.inl rfl

lemma parStep_bool {G T : Nat} {prev curr : Grid}
    (hbp : ∀ a b, prev a b = 0 ∨ prev a b = 1)
    (hbc : ∀ a b, curr a b = 0 ∨ curr a b = 1) (i j : Nat) :
    parStep G T prev curr i j = 0 ∨ parStep G T prev curr i j = 1 := by
  rw [parStep]
  split_ifs with h
  · exact nextCell_bool hbp i j
  · exact hbc i j

lemma runIters_bool (G T : Nat) (s : LifeState)
    (h0 : ∀ a b, s.buf0 a b = 0 ∨ s.buf0 a b = 1)
    (h1 : ∀ a b, s.buf1 a b = 0 ∨ s.buf1 a b = 1) (n : Nat) :
    (∀ a b, (runIters G T n s).buf0 a b = 0 ∨ (runIters G T n s).buf0 a b = 1) ∧
    (∀ a b, (runIters G T n s).buf1 a b = 0 ∨ (runIters G T n s).buf1 a b = 1) := by
  induction n with
  | zero => exact ⟨h0, h1⟩
  | succ n ih =>
    rw [runIters, stepState]
    by_cases hp : (n + 1) % 2 = 1
    · rw [if_pos hp]
      exact ⟨ih.1, fun a b => parStep_bool ih.1 ih.2 a b⟩
    · rw [if_neg hp]
      exact ⟨fun a b => parStep_bool ih.2 ih.1 a b, ih.2⟩

lemma initGrid_bool (G : Nat) (p : ℚ) (s a b : Nat) :
    initGrid G p s a b = 0 ∨ initGrid G p s a b = 1 := by
  rw [initGrid]
  split_ifs
  · exact Or.inr rfl
  · exact Or.inl rfl

lemma prevBuf_run_bool (G T : Nat) (p : ℚ) (s n g : Nat) (a b : Nat) :
    prevBuf g (runIters G T n (initState G p s)) a b = 0 ∨
      prevBuf g (runIters G T n (initState G p s)) a b = 1 := by
  have h := runIters_bool G T (initState G p s)
    (fun a b => initGrid_bool G p s a b) (fun a b => Or.inl rfl) n
  rw [prevBuf]
  split_ifs
  · exact h.1 a b
  · exact h.2 a b

lemma currBuf_stepState (G T iter : Nat) (s : LifeState) :
    currBuf iter (stepState G T iter s)
      = parStep G T (prevBuf iter s) (currBuf iter s) := by
  rw [currBuf, stepState, prevBuf, currBuf]
  by_cases hp : iter % 2 = 1
  · rw [if_pos hp, if_pos hp, if_pos hp, if_pos hp]
  · rw [if_neg hp, if_neg hp, if_neg hp, if_neg hp]

/-! ### Helper lemmas: the counter reduction -/

lemma foldl_accumulate (l : List Counters) (c : Counters) :
    ((l.foldl accumulate c).live = c.live + (l.map Counters.live).sum ∧
     (l.foldl accumulate c).died = c.died + (l.map Counters.died).sum ∧
     (l.foldl accumulate c).born = c.born + (l.map Counters.born).sum) := by
  induction l generalizing c with
  | nil => simp
  | cons x xs ih =>
    rcases ih (accumulate c x) with ⟨i1, i2, i3⟩
    refine ⟨?_, ?_, ?_⟩
    · rw [List.foldl_cons, i1, List.map_cons, List.sum_cons]
      simp only [accumulate]
      omega
    · rw [List.foldl_cons, i2, List.map_cons, List.sum_cons]
      simp only [accumulate]
      omega
    · rw [List.foldl_cons, i3, List.map_cons, List.sum_cons]
      simp only [accumulate]
      omega

/-! ## Claim theorems -/

/-- C1: for every interior cell in a worker's row range and every generation,
the transition writes the new state as a function of the 8-neighbor sum taken
from the previous buffer: a sum of exactly 2 copies the cell's previous state
unchanged, a sum of exactly 3 makes the cell live, and any other sum makes
the cell dead. -/
theorem transition_rule (G T iter : Nat) (s : LifeState) (t i j : Nat)
    (ht : t < T) (hi : i ∈ rowRange t G T) (hj1 : 1 ≤ j) (hj2 : j ≤ G) :
    (neighCount (prevBuf iter s) i j = 2 →
      currBuf iter (stepState G T iter s) i j = prevBuf iter s i j) ∧
    (neighCount (prevBuf iter s) i j = 3 →
      currBuf iter (stepState G T iter s) i j = 1) ∧
    (neighCount (prevBuf iter s) i j ≠ 2 → neighCount (prevBuf iter s) i j ≠ 3 →
      currBuf iter (stepState G T iter s) i j = 0) := by
  have ho : ownedRow G T i = true := (ownedRow_iff G T i).2 ⟨t, ht, hi⟩
  rw [currBuf_stepState, parStep_owned ho hj1 hj2, nextCell]
  refine ⟨fun h2 => ?_, fun h3 => ?_, fun h2 h3 => ?_⟩
  · rw [if_pos h2]
  · rw [if_neg (by omega), if_pos h3]
  · rw [if_neg h2, if_neg h3]

/-- Witness for C1: G = 1, one worker, iteration 1, the seeded all-live
state, worker 0, cell (1,1). -/
theorem transition_rule_witness :
    ((0 : Nat) < 1 ∧ 1 ∈ rowRange 0 1 1 ∧ (1 : Nat) ≤ 1 ∧ (1 : Nat) ≤ 1) ∧
    ((neighCount (prevBuf 1 (initState 1 1 0)) 1 1 = 2 →
      currBuf 1 (stepState 1 1 1 (initState 1 1 0)) 1 1 = prevBuf 1 (initState 1 1 0) 1 1) ∧
     (neighCount (prevBuf 1 (initState 1 1 0)) 1 1 = 3 →
      currBuf 1 (stepState 1 1 1 (initState 1 1 0)) 1 1 = 1) ∧
     (neighCount (prevBuf 1 (initState 1 1 0)) 1 1 ≠ 2 →
      neighCount (prevBuf 1 (initState 1 1 0)) 1 1 ≠ 3 →
      currBuf 1 (stepState 1 1 1 (initState 1 1 0)) 1 1 = 0)) :=
  ⟨⟨by decide, by decide, by decide, by decide⟩,
   transition_rule 1 1 1 (initState 1 1 0) 0 1 1 (by decide) (by decide) (by decide) (by decide)⟩

/-- C2: for every generation g of a run, the reduced birth count equals the
number of interior cells on worker-visited rows that are dead in the
previous buffer and live in the current one, and the reduced death count
equals the number of such cells live in the previous buffer and dead in the
current one. -/
theorem counts_match_transitions (G T : Nat) (hT : 1 ≤ T) (p : ℚ) (s g : Nat)
    (hg : 1 ≤ g) :
    (statsOfGen G T p s g).born
      = visitedBirths G T (prevBuf g (runIters G T (g-1) (initState G p s)))
          (parStep G T (prevBuf g (runIters G T (g-1) (initState G p s)))
              (currBuf g (runIters G T (g-1) (initState G p s)))) ∧
    (statsOfGen G T p s g).died
      = visitedDeaths G T (prevBuf g (runIters G T (g-1) (initState G p s)))
          (parStep G T (prevBuf g (runIters G T (g-1) (initState G p s)))
              (currBuf g (runIters G T (g-1) (initState G p s)))) := by
  constructor
  · exact totalBirths_eq_visited hT _ _
  · exact totalDeaths_eq_visited hT _ _ (prevBuf_run_bool G T p s (g-1) g)

/-- Witness for C2: G = 1, one worker, all-live seeding, generation 1. -/
theorem counts_match_transitions_witness :
    ((1 : Nat) ≤ 1 ∧ (1 : Nat) ≤ 1) ∧
    ((statsOfGen 1 1 1 0 1).born
        = visitedBirths 1 1 (prevBuf 1 (runIters 1 1 0 (initState 1 1 0)))
            (parStep 1 1 (prevBuf 1 (runIters 1 1 0 (initState 1 1 0)))
                (currBuf 1 (runIters 1 1 0 (initState 1 1 0)))) ∧
     (statsOfGen 1 1 1 0 1).died
        = visitedDeaths 1 1 (prevBuf 1 (runIters 1 1 0 (initState 1 1 0)))
            (parStep 1 1 (prevBuf 1 (runIters 1 1 0 (initState 1 1 0)))
                (currBuf 1 (runIters 1 1 0 (initState 1 1 0))))) :=
  ⟨⟨by decide, by decide⟩, counts_match_transitions 1 1 (by decide) 1 0 1 (by decide)⟩

/-- C3: for every worker count T ≥ 1 and grid size G ≥ 1 the code's row
ranges are pairwise disjoint, and when T divides G every interior row
belongs to exactly one worker's range. -/
theorem row_partition (G T : Nat) (hT : 1 ≤ T) (hG : 1 ≤ G) :
    (∀ t1 t2, t1 < T → t2 < T → t1 ≠ t2 →
      Disjoint (rowRange t1 G T) (rowRange t2 G T)) ∧
    (G % T = 0 → ∀ i, 1 ≤ i → i ≤ G → ∃! t, t < T ∧ i ∈ rowRange t G T) := by
  refine ⟨fun t1 t2 _ _ h => rowRange_disjoint G T h, fun hdvd i h1 h2 => ?_⟩
  rcases coverage_of_dvd hT hdvd h1 h2 with ⟨t, ht, hi⟩
  refine ⟨t, ⟨ht, hi⟩, ?_⟩
  rintro t' ⟨ht', hi'⟩
  by_contra hne
  exact Finset.disjoint_left.1 (rowRange_disjoint G T hne) hi' hi

/-- Witness for C3: G = 4, T = 2. -/
theorem row_partition_witness :
    ((1 : Nat) ≤ 2 ∧ (1 : Nat) ≤ 4) ∧
    ((∀ t1 t2, t1 < 2 → t2 < 2 → t1 ≠ t2 →
        Disjoint (rowRange t1 4 2) (rowRange t2 4 2)) ∧
     (4 % 2 = 0 → ∀ i, 1 ≤ i → i ≤ 4 → ∃! t, t < 2 ∧ i ∈ rowRange t 4 2)) :=
  ⟨⟨by decide, by decide⟩, row_partition 4 2 (by decide) (by decide)⟩

/-- Counterexample to C4 as stated: with gridsize 5 and 3 workers the
unowned interior rows are 3 and 5 while row 4 is owned, so the unowned rows
are not a contiguous block of highest-indexed rows. -/
theorem unowned_rows_not_highest_block :
    5 % 3 ≠ 0 ∧ ownedRow 5 3 3 = false ∧ ownedRow 5 3 4 = true ∧
      ownedRow 5 3 5 = false := by decide

/-- C4 (amended): when T does not divide G, exactly G % T interior rows
are owned by no worker, row G is always among them (though the unowned rows
need not be contiguous), and unowned rows are never written: buffer 0 keeps
its initial seeding there and buffer 1 stays zero for the whole run. -/
theorem unowned_rows_fixed (G T : Nat) (hT : 1 ≤ T) (hnd : G % T ≠ 0) :
    ((Finset.Icc 1 G).filter (fun i => ¬ ownedRow G T i)).card = G % T ∧
    ownedRow G T G = false ∧
    (∀ (p : ℚ) (s n i j : Nat), ownedRow G T i = false →
      (runIters G T n (initState G p s)).buf0 i j = initGrid G p s i j ∧
      (runIters G T n (initState G p s)).buf1 i j = 0) := by
  refine ⟨unowned_card hT, ?_, ?_⟩
  · rw [Bool.eq_false_iff]
    intro hcon
    rcases (ownedRow_iff G T G).1 hcon with ⟨t, ht, hm⟩
    rw [rowRange, Finset.mem_Icc] at hm
    have := end_row_lt_of_not_dvd hT ht hnd
    omega
  · intro p s n i j h
    exact runIters_unowned h (initState G p s) n j

/-- Witness for C4 (amended): G = 5, T = 3, checking the unowned row 5 after
two iterations of the all-live run. -/
theorem unowned_rows_fixed_witness :
    ((1 : Nat) ≤ 3 ∧ 5 % 3 ≠ 0) ∧
    (((Finset.Icc 1 5).filter (fun i => ¬ ownedRow 5 3 i)).card = 5 % 3 ∧
     ownedRow 5 3 5 = false ∧
     (∀ (p : ℚ) (s n i j : Nat), ownedRow 5 3 i = false →
       (runIters 5 3 n (initState 5 p s)).buf0 i j = initGrid 5 p s i j ∧
       (runIters 5 3 n (initState 5 p s)).buf1 i j = 0)) :=
  ⟨⟨by decide, by decide⟩, unowned_rows_fixed 5 3 (by decide) (by decide)⟩

/-- C5: the halo cells (row 0, row G+1, column 0, column G+1) of both
buffers are dead in every generation of every run. -/
theorem halo_dead (G T : Nat) (hT : 1 ≤ T) (p : ℚ) (s n i j : Nat)
    (h : i = 0 ∨ i = G + 1 ∨ j = 0 ∨ j = G + 1) :
    (runIters G T n (initState G p s)).buf0 i j = 0 ∧
    (runIters G T n (initState G p s)).buf1 i j = 0 :=
  runIters_halo hT h (initState G p s) (initGrid_halo p s h) rfl n

/-- Witness for C5: G = 2, T = 1, all-live seeding, 3 iterations, halo cell
(0, 1). -/
theorem halo_dead_witness :
    ((1 : Nat) ≤ 1 ∧ ((0 : Nat) = 0 ∨ (0 : Nat) = 2 + 1 ∨ (1 : Nat) = 0 ∨ (1 : Nat) = 2 + 1)) ∧
    ((runIters 2 1 3 (initState 2 1 0)).buf0 0 1 = 0 ∧
     (runIters 2 1 3 (initState 2 1 0)).buf1 0 1 = 0) :=
  ⟨⟨by decide, by decide⟩, halo_dead 2 1 (by decide) 1 0 3 0 1 (by decide)⟩

/-- Counterexample to C6 as stated: with gridsize 3, all-live seeding and one
iteration, the single-worker run and the two-worker run disagree at cell
(3, 1), because row 3 is owned by no worker when T = 2. -/
theorem parallel_run_differs :
    finalGrid 3 1 1 1 0 3 1 = 1 ∧ finalGrid 3 2 1 1 0 3 1 = 0 := by decide

/-- C6 (amended): when T divides G (so every interior row is owned), a run
with T workers and a run with one worker produce identical final grids for
every seeding and iteration count. -/
theorem parallel_run_deterministic (G T iters : Nat) (p : ℚ) (s : Nat)
    (hT : 1 ≤ T) (hdvd : G % T = 0) :
    finalGrid G T iters p s = finalGrid G 1 iters p s := by
  rw [finalGrid, finalGrid,
    runIters_congr (fun i => ownedRow_congr_dvd hT hdvd i) iters (initState G p s)]

/-- Witness for C6 (amended): G = 2, T = 2, one iteration. -/
theorem parallel_run_deterministic_witness :
    ((1 : Nat) ≤ 2 ∧ 2 % 2 = 0) ∧ finalGrid 2 2 1 1 0 = finalGrid 2 1 1 1 0 :=
  ⟨⟨by decide, by decide⟩, parallel_run_deterministic 2 2 1 1 0 (by decide) (by decide)⟩

/-- C7: for gridsize 3, all-live seeding, one worker and one generation, the
four corner interior cells are live, the other five interior cells are dead,
and the reported live count is exactly 4. -/
theorem three_by_three_one_step :
    (finalGrid 3 1 1 1 0 1 1 = 1 ∧ finalGrid 3 1 1 1 0 1 3 = 1 ∧
     finalGrid 3 1 1 1 0 3 1 = 1 ∧ finalGrid 3 1 1 1 0 3 3 = 1 ∧
     finalGrid 3 1 1 1 0 1 2 = 0 ∧ finalGrid 3 1 1 1 0 2 1 = 0 ∧
     finalGrid 3 1 1 1 0 2 2 = 0 ∧ finalGrid 3 1 1 1 0 2 3 = 0 ∧
     finalGrid 3 1 1 1 0 3 2 = 0) ∧
    (statsOfGen 3 1 1 0 1).live = 4 := by decide

/-- C8: whatever serialization the mutex produces for the workers'
contributions, the reduced shared counters equal the sums of all workers'
local live, death and birth counts. -/
theorem reduction_sums_locals (locals order : List Counters)
    (h : order.Perm locals) :
    (reduceCounts order).live = (locals.map Counters.live).sum ∧
    (reduceCounts order).died = (locals.map Counters.died).sum ∧
    (reduceCounts order).born = (locals.map Counters.born).sum := by
  rcases foldl_accumulate order resetCounters with ⟨h1, h2, h3⟩
  rw [reduceCounts]
  refine ⟨?_, ?_, ?_⟩
  · rw [h1, (h.map Counters.live).sum_eq]
    simp [resetCounters]
  · rw [h2, (h.map Counters.died).sum_eq]
    simp [resetCounters]
  · rw [h3, (h.map Counters.born).sum_eq]
    simp [resetCounters]

/-- Witness for C8: two workers' contributions folded in the opposite
order. -/
theorem reduction_sums_locals_witness :
    ([⟨4, 5, 6⟩, ⟨1, 2, 3⟩] : List Counters).Perm [⟨1, 2, 3⟩, ⟨4, 5, 6⟩] ∧
    ((reduceCounts [⟨4, 5, 6⟩, ⟨1, 2, 3⟩]).live
        = (([⟨1, 2, 3⟩, ⟨4, 5, 6⟩] : List Counters).map Counters.live).sum ∧
     (reduceCounts [⟨4, 5, 6⟩, ⟨1, 2, 3⟩]).died
        = (([⟨1, 2, 3⟩, ⟨4, 5, 6⟩] : List Counters).map Counters.died).sum ∧
     (reduceCounts [⟨4, 5, 6⟩, ⟨1, 2, 3⟩]).born
        = (([⟨1, 2, 3⟩, ⟨4, 5, 6⟩] : List Counters).map Counters.born).sum) :=
  ⟨List.Perm.swap (⟨1, 2, 3⟩ : Counters) (⟨4, 5, 6⟩ : Counters) [],
   reduction_sums_locals [⟨1, 2, 3⟩, ⟨4, 5, 6⟩] [⟨4, 5, 6⟩, ⟨1, 2, 3⟩]
     (List.Perm.swap (⟨1, 2, 3⟩ : Counters) (⟨4, 5, 6⟩ : Counters) [])⟩

/-- Counterexample to C9 as stated: a failing barrier initialization (return
code 1) with successful thread creation does not make the program exit; the
run proceeds because the barrier and mutex return codes are never examined. -/
theorem startup_ignores_barrier_failure :
    startup 1 0 [0] = StartupResult.running := rfl

/-- C9 (amended): only thread creation failures abort startup: if some
`pthread_create` returns nonzero, the program reports the first failing
thread index on standard error and exits with status 1 — and this behavior
is unchanged by the barrier and mutex initialization return codes, which are
ignored. -/
theorem startup_thread_failure (b m : Int) (rcs : List Int) (t : Nat)
    (h : rcs.findIdx? (fun rc => rc != 0) = some t) :
    startup b m rcs
        = StartupResult.exited 1 ("Could not create thread " ++ toString t) ∧
    (∀ b' m' : Int, startup b' m' rcs = startup b m rcs) := by
  constructor
  · rw [startup, h]
  · intro b' m'
    rfl

/-- Witness for C9 (amended): thread 1 of two fails with return code 5. -/
theorem startup_thread_failure_witness :
    ([0, 5] : List Int).findIdx? (fun rc => rc != 0) = some 1 ∧
    (startup 2 3 [0, 5]
        = StartupResult.exited 1 ("Could not create thread " ++ toString 1) ∧
     (∀ b' m' : Int, startup b' m' [0, 5] = startup 2 3 [0, 5])) :=
  ⟨by decide, startup_thread_failure 2 3 [0, 5] 1 (by decide)⟩

/-- C10: the generator is seeded with the hardcoded constant 0, so the whole
observable run (initial live count, per-generation statistics, final grid)
is the same function of the command-line arguments whatever the outside
world provides: two runs with the same arguments are identical. -/
theorem run_output_seed_independent (e1 e2 G T iters : Nat) (p : ℚ) :
    observableRun e1 G T iters p = observableRun e2 G T iters p ∧
    seedOf e1 = 0 :=
  ⟨rfl, rfl⟩


end Life
